import Mathlib

/-!
Shallow embedding of `cmd/graphsplit/main.go` from go-graphsplit.

The `chunk` and `restore` CLI actions are embedded as pure functions from the
parsed flag values and an environment (the outcomes of the external library
calls: `config.LoadConfig`, `cfg.SaveConfig`, `units.RAMInBytes`,
`graphsplit.NewRealFile`, `graphsplit.Chunk`, `graphsplit.CarTo`,
`graphsplit.Merge`) to a trace of the external effects the action performs,
paired with the `error` value the action returns.  The infinite `loop`
branch of the chunk command is run under explicit fuel: `RunResult.running`
marks a loop that has not terminated within the given number of iterations.
-/

namespace Graphsplit

/-- `graphsplit.Gib`: one gibibyte, used in the `32*graphsplit.Gib` bound. -/
def Gib : Int := 1073741824

/-- The fields of `config.Config` read by the chunk command:
`SliceSize`, `ExtraFilePath`, `ExtraFileSizeInOnePiece`. -/
structure Cfg where
  SliceSize : Int
  ExtraFilePath : String
  ExtraFileSizeInOnePiece : String
  deriving Repr, DecidableEq

/-- The three `graphsplit.GraphBuildCallback` constructors used by the chunk
command: `CommPCallback(carDir, rename, addPadding)`, `CSVCallback(carDir)`,
`ErrCallback()`. -/
inductive GraphBuildCallback where
  | commP (carDir : String) (rename addPadding : Bool)
  | csv (carDir : String)
  | err
  deriving Repr, DecidableEq

/-- One external effect performed by a command action. -/
inductive Event where
  | existDirCheck (path : String) (ok : Bool)
  | loadConfig (path : String)
  | saveConfig (path : String) (sliceSize : Int)
  | parseRAM (s : String)
  | newRealFile (path : String) (extraSize sliceSize : Int) (rename : Bool)
  | chunkCall (sliceSize : Int) (parentPath targetPath carDir graphName : String)
      (parallel : Nat) (cb : GraphBuildCallback) (randomRename randomSelect : Bool)
  | sleep (seconds : Nat)
  | carTo (carPath outputDir : String) (parallel : Int)
  | merge (outputDir : String) (parallel : Int)
  deriving Repr, DecidableEq

/-- The `error` value a command action returns: `err msg` for a non-nil
error, `ok` for nil; `running` marks fuel exhaustion of the loop branch. -/
inductive RunResult where
  | err (msg : String)
  | ok
  | running
  deriving Repr, DecidableEq

/-- Does the event record a `cfg.SaveConfig` call? -/
def Event.isSave : Event → Bool
  | .saveConfig _ _ => true
  | _ => false

/-- Does the event record a `units.RAMInBytes` call? -/
def Event.isParseRAM : Event → Bool
  | .parseRAM _ => true
  | _ => false

/-- Does the event record a `graphsplit.Chunk` call? -/
def Event.isChunkCall : Event → Bool
  | .chunkCall _ _ _ _ _ _ _ _ _ => true
  | _ => false

/-- The callback an event passes to `graphsplit.Chunk`, if it is a Chunk call. -/
def Event.cbOf : Event → Option GraphBuildCallback
  | .chunkCall _ _ _ _ _ _ cb _ _ => some cb
  | _ => none

/-- The slice size an event passes to `graphsplit.Chunk`, if it is a Chunk call. -/
def Event.sliceOf : Event → Option Int
  | .chunkCall s _ _ _ _ _ _ _ _ => some s
  | _ => none

/-- `strings.TrimSuffix(s, "/")`: drop one trailing slash if present. -/
def trimSuffixSlash (s : String) : String :=
  if s.data.getLast? = some '/' then String.mk s.data.dropLast else s

/-- The flag values of the `chunk` command, plus its positional argument. -/
structure ChunkFlags where
  parallel : Nat
  graphName : String
  carDir : String
  parentPath : String
  saveManifest : Bool
  calcCommp : Bool
  rename : Bool
  randomRenameSourceFile : Bool
  addPadding : Bool
  config : String
  loop : Bool
  randomSelectFile : Bool
  targetPath : String
  deriving Repr, DecidableEq

/-- Outcomes of the external calls the chunk action makes.  `saveConfig k`
and `chunkRun k` give the outcome of the k-th `SaveConfig` resp. `Chunk`
call (`none` = success); fallible calls return `Except String`. -/
structure ChunkEnv where
  existDir : String → Bool
  loadConfig : String → Except String Cfg
  saveConfig : Nat → Option String
  ramInBytes : String → Except String Int
  newRealFile : Option String
  chunkRun : Nat → Option String

/-- Lines 160-167: callback selection from the `calc-commp` and
`save-manifest` flags. -/
def selectCallback (f : ChunkFlags) : GraphBuildCallback :=
  if f.calcCommp then .commP f.carDir f.rename f.addPadding
  else if f.saveManifest then .csv f.carDir
  else .err

/-- Lines 140-149: resolve `extraFileSliceSize` from the config.  The size
string is consulted and parsed only when `ExtraFilePath` is non-empty;
otherwise the Go zero value 0 is kept. -/
def resolveExtra (env : ChunkEnv) (cfg : Cfg) : List Event × Except String Int :=
  if cfg.ExtraFilePath.length ≠ 0 then
    if cfg.ExtraFileSizeInOnePiece = "" then
      ([], .error "extra file size in one piece is required when extra file path is set")
    else
      match env.ramInBytes cfg.ExtraFileSizeInOnePiece with
      | .error e => ([Event.parseRAM cfg.ExtraFileSizeInOnePiece],
          .error ("failed to parse real file size: " ++ e))
      | .ok v => ([Event.parseRAM cfg.ExtraFileSizeInOnePiece], .ok v)
  else ([], .ok 0)

/-- Lines 176-192: the `for` loop.  `mkEv s` is the Chunk-call event at
slice size `s`; `k` counts iterations (the k-th Chunk call overall and the
(k+1)-th SaveConfig call).  After a successful pass the slice size is
incremented, re-saved and the driver sleeps 60 seconds; a failed pass or a
failed save returns immediately. -/
def loopGo (env : ChunkEnv) (cfgPath : String) (mkEv : Int → Event)
    (ss : Int) (k : Nat) : Nat → List Event × RunResult
  | 0 => ([], .running)
  | Nat.succ fuel =>
    match env.chunkRun k with
    | some e => ([mkEv ss], .err ("failed to chunk: " ++ e))
    | none =>
      match env.saveConfig (k + 1) with
      | some e => ([mkEv ss, Event.saveConfig cfgPath (ss + 1)],
          .err ("failed to save config file: " ++ e))
      | none =>
        (mkEv ss :: Event.saveConfig cfgPath (ss + 1) :: Event.sleep 60 ::
          (loopGo env cfgPath mkEv (ss + 1) (k + 1) fuel).1,
         (loopGo env cfgPath mkEv (ss + 1) (k + 1) fuel).2)

/-- Lines 159-192: after `NewRealFile` succeeded, run `Chunk` once or loop. -/
def runChunkPhase (env : ChunkEnv) (f : ChunkFlags) (cb : GraphBuildCallback)
    (ss : Int) (fuel : Nat) : List Event × RunResult :=
  if !f.loop then
    match env.chunkRun 0 with
    | some e => ([Event.chunkCall ss f.parentPath (trimSuffixSlash f.targetPath)
        f.carDir f.graphName f.parallel cb f.randomRenameSourceFile f.randomSelectFile],
        .err e)
    | none => ([Event.chunkCall ss f.parentPath (trimSuffixSlash f.targetPath)
        f.carDir f.graphName f.parallel cb f.randomRenameSourceFile f.randomSelectFile],
        .ok)
  else
    loopGo env f.config
      (fun s => Event.chunkCall s f.parentPath (trimSuffixSlash f.targetPath)
        f.carDir f.graphName f.parallel cb f.randomRenameSourceFile f.randomSelectFile)
      ss 0 fuel

/-- Lines 150-192: after `extraFileSliceSize` resolved: the 32 GiB bound
check, then `NewRealFile`, then callback selection and chunking. -/
def afterExtra (env : ChunkEnv) (f : ChunkFlags) (cfg : Cfg)
    (ss extra : Int) (fuel : Nat) : List Event × RunResult :=
  if ss + extra > 32 * Gib then
    ([], .err ("slice size " ++ toString ss ++ " + extra file slice size " ++
      toString extra ++ " exceeds 32 GiB"))
  else
    match env.newRealFile with
    | some e => ([Event.newRealFile (trimSuffixSlash cfg.ExtraFilePath) extra ss
        f.randomRenameSourceFile], .err e)
    | none =>
      (Event.newRealFile (trimSuffixSlash cfg.ExtraFilePath) extra ss
          f.randomRenameSourceFile ::
        (runChunkPhase env f (selectCallback f) ss fuel).1,
       (runChunkPhase env f (selectCallback f) ss fuel).2)

/-- Lines 140-192: after the config was saved: extra-file resolution, then
the rest of the action. -/
def afterSave (env : ChunkEnv) (f : ChunkFlags) (cfg : Cfg)
    (ss : Int) (fuel : Nat) : List Event × RunResult :=
  match (resolveExtra env cfg).2 with
  | .error e => ((resolveExtra env cfg).1, .err e)
  | .ok extra =>
    ((resolveExtra env cfg).1 ++ (afterExtra env f cfg ss extra fuel).1,
     (afterExtra env f cfg ss extra fuel).2)

/-- Lines 128-192: after the config was loaded: the increment of
`cfg.SliceSize`, the non-positivity check on the incremented value, the
save of the incremented config, then the rest of the action. -/
def afterLoad (env : ChunkEnv) (f : ChunkFlags) (cfg : Cfg)
    (fuel : Nat) : List Event × RunResult :=
  if cfg.SliceSize + 1 ≤ 0 then
    ([], .err ("slice size has been set as " ++ toString (cfg.SliceSize + 1)))
  else
    match env.saveConfig 0 with
    | some e => ([Event.saveConfig f.config (cfg.SliceSize + 1)],
        .err ("failed to save config file: " ++ e))
    | none =>
      (Event.saveConfig f.config (cfg.SliceSize + 1) ::
          (afterSave env f cfg (cfg.SliceSize + 1) fuel).1,
       (afterSave env f cfg (cfg.SliceSize + 1) fuel).2)

/-- Lines 105-193: the `chunk` command's Action. -/
def chunkAction (env : ChunkEnv) (f : ChunkFlags) (fuel : Nat) :
    List Event × RunResult :=
  if !env.existDir f.carDir then
    ([Event.existDirCheck f.carDir false], .err "the path of car-dir does not exist")
  else if f.config = "" then
    ([Event.existDirCheck f.carDir true], .err "config file path is required")
  else
    match env.loadConfig f.config with
    | .error e => ([Event.existDirCheck f.carDir true, Event.loadConfig f.config],
        .err ("failed to load config file(" ++ f.config ++ "): " ++ e))
    | .ok cfg =>
      (Event.existDirCheck f.carDir true :: Event.loadConfig f.config ::
          (afterLoad env f cfg fuel).1,
       (afterLoad env f cfg fuel).2)

/-- The flag values of the `restore` command. -/
structure RestoreFlags where
  carPath : String
  outputDir : String
  parallel : Int
  deriving Repr, DecidableEq

/-- Failures occurring inside `graphsplit.CarTo` / `graphsplit.Merge`
(archives that fail to decode, files that fail to be written).  Those
library calls return no value to the command, so the command action below
cannot and does not consult this record. -/
structure RestoreEnv where
  restoreFailures : List String
  mergeFailures : List String
  deriving Repr, DecidableEq

/-- Lines 216-229: the `restore` command's Action: guard on `parallel`,
then `CarTo`, then `Merge`, then `return nil`. -/
def restoreAction (env : RestoreEnv) (f : RestoreFlags) : List Event × RunResult :=
  if f.parallel ≤ 0 then
    ([], .err "Unexpected! Parallel has to be greater than 0")
  else
    ([Event.carTo f.carPath f.outputDir f.parallel,
      Event.merge f.outputDir f.parallel], .ok)

/-! Concrete sample configurations and environments, used to evaluate the
embedded actions on closed inputs. -/

/-- A sample config with the given slice size and no extra file. -/
def cfgPlain (ss : Int) : Cfg :=
  { SliceSize := ss, ExtraFilePath := "", ExtraFileSizeInOnePiece := "" }

/-- An environment in which every external call succeeds and the config
loads as `cfg`; only the size string "1g" parses (to 2^30 bytes). -/
def envOk (cfg : Cfg) : ChunkEnv where
  existDir := fun _ => true
  loadConfig := fun _ => .ok cfg
  saveConfig := fun _ => none
  ramInBytes := fun s => if s = "1g" then .ok 1073741824 else .error "invalid size"
  newRealFile := none
  chunkRun := fun _ => none

/-- Like `envOk` but the car directory does not exist. -/
def envNoDir (cfg : Cfg) : ChunkEnv :=
  { envOk cfg with existDir := fun _ => false }

/-- Like `envOk` but the k-th `Chunk` call fails when `fail k`. -/
def envChunkFail (cfg : Cfg) (fail : Nat → Bool) : ChunkEnv :=
  { envOk cfg with
    chunkRun := fun k => if fail k then some "read error" else none }

/-- A sample config whose incremented slice size plus the parsed extra size
("1g" = 2^30 bytes) exceeds 32 GiB by exactly one byte. -/
def cfgBig : Cfg :=
  { SliceSize := 33285996544, ExtraFilePath := "extra.bin",
    ExtraFileSizeInOnePiece := "1g" }

/-- A sample config with an extra file path but no extra size string. -/
def cfgExtraNoSize : Cfg :=
  { SliceSize := 5, ExtraFilePath := "extra.bin", ExtraFileSizeInOnePiece := "" }

/-- Does the event record the 60-second wait of the loop driver? -/
def Event.isSleep : Event → Bool
  | .sleep _ => true
  | _ => false

/-- Is the returned `error` value non-nil? -/
def RunResult.isErr : RunResult → Bool
  | .err _ => true
  | _ => false

/-- Default chunk flags for the sample runs. -/
def flags0 : ChunkFlags where
  parallel := 2
  graphName := "g"
  carDir := "car"
  parentPath := ""
  saveManifest := true
  calcCommp := true
  rename := false
  randomRenameSourceFile := false
  addPadding := false
  config := "cfg.toml"
  loop := false
  randomSelectFile := true
  targetPath := "data"

/-! Theorems for the claims about the `restore` command. -/

/-- C7: for every invocation of the restore command with parallelism ≤ 0,
the command fails with an error before either phase is invoked (the trace
is empty); for every parallelism > 0 the check passes and both phases run. -/
theorem restore_parallel_guard (env : RestoreEnv) (f : RestoreFlags) :
    (f.parallel ≤ 0 → restoreAction env f =
      ([], RunResult.err "Unexpected! Parallel has to be greater than 0")) ∧
    (0 < f.parallel → restoreAction env f =
      ([Event.carTo f.carPath f.outputDir f.parallel,
        Event.merge f.outputDir f.parallel], RunResult.ok)) := by
  refine ⟨fun h => ?_, fun h => ?_⟩
  · rw [restoreAction, if_pos h]
  · rw [restoreAction, if_neg (by omega)]

theorem restore_parallel_guard_wit :
    restoreAction ⟨[], []⟩ ⟨"car", "out", 0⟩ =
      ([], RunResult.err "Unexpected! Parallel has to be greater than 0") ∧
    restoreAction ⟨[], []⟩ ⟨"car", "out", 4⟩ =
      ([Event.carTo "car" "out" 4, Event.merge "out" 4], RunResult.ok) :=
  ⟨(restore_parallel_guard ⟨[], []⟩ ⟨"car", "out", 0⟩).1 (by decide),
   (restore_parallel_guard ⟨[], []⟩ ⟨"car", "out", 4⟩).2 (by decide)⟩

/-- C6: every successful invocation of the restore command runs the
per-archive restore phase (`CarTo`, on the archive source path) before the
merge phase (`Merge`), and both receive the same output directory and the
same parallelism value. -/
theorem restore_phase_order (env : RestoreEnv) (f : RestoreFlags)
    (h : (restoreAction env f).2 = RunResult.ok) :
    (restoreAction env f).1 =
      [Event.carTo f.carPath f.outputDir f.parallel,
       Event.merge f.outputDir f.parallel] := by
  by_cases hp : f.parallel ≤ 0
  · rw [restoreAction, if_pos hp] at h
    exact absurd h (by simp)
  · rw [restoreAction, if_neg hp]

theorem restore_phase_order_wit :
    (restoreAction ⟨[], []⟩ ⟨"car", "out", 4⟩).1 =
      [Event.carTo "car" "out" 4, Event.merge "out" 4] :=
  restore_phase_order ⟨[], []⟩ ⟨"car", "out", 4⟩ (by decide)

/-- C2 counterexample: an invocation in which an archive failed to decode
(the environment records a per-file failure) yet the restore command's
result is nil, contradicting the claim that the result is a non-nil error
aggregating the failures whenever any file failed. -/
theorem restore_errors_cex :
    (RestoreEnv.mk ["a.car: failed to decode"] []).restoreFailures ≠ [] ∧
    (restoreAction ⟨["a.car: failed to decode"], []⟩ ⟨"car", "out", 4⟩).2 =
      RunResult.ok := by
  exact ⟨by decide, rfl⟩

/-- C2 amended: the restore command does not surface per-file failures:
`CarTo` and `Merge` return nothing to it, so for every invocation with
parallelism > 0 its result is nil, and the whole outcome is independent of
whatever failures occurred inside the two phases. -/
theorem restore_errors_ignored (env env' : RestoreEnv) (f : RestoreFlags)
    (h : 0 < f.parallel) :
    (restoreAction env f).2 = RunResult.ok ∧
    restoreAction env f = restoreAction env' f := by
  simp [restoreAction, if_neg (show ¬f.parallel ≤ 0 by omega)]

theorem restore_errors_ignored_wit :
    (restoreAction ⟨["x"], ["y"]⟩ ⟨"car", "out", 1⟩).2 = RunResult.ok ∧
    restoreAction ⟨["x"], ["y"]⟩ ⟨"car", "out", 1⟩ =
      restoreAction ⟨[], []⟩ ⟨"car", "out", 1⟩ :=
  restore_errors_ignored ⟨["x"], ["y"]⟩ ⟨[], []⟩ ⟨"car", "out", 1⟩ (by decide)

/-! Theorems for the claims about the `chunk` command. -/

/-- C9: the chunk command fails before loading any configuration when the
car directory does not exist or the config-path flag is empty: in both
cases the trace holds only the directory check, so no config file is read
and no chunking work is started. -/
theorem chunk_early_guards (env : ChunkEnv) (f : ChunkFlags) (fuel : Nat) :
    (env.existDir f.carDir = false → chunkAction env f fuel =
      ([Event.existDirCheck f.carDir false],
       RunResult.err "the path of car-dir does not exist")) ∧
    (env.existDir f.carDir = true → f.config = "" → chunkAction env f fuel =
      ([Event.existDirCheck f.carDir true],
       RunResult.err "config file path is required")) := by
  refine ⟨fun h => ?_, fun h h' => ?_⟩
  · rw [chunkAction, if_pos (by simp [h])]
  · rw [chunkAction, if_neg (by simp [h]), if_pos h']

theorem chunk_early_guards_wit :
    chunkAction (envNoDir (cfgPlain 5)) flags0 1 =
      ([Event.existDirCheck "car" false],
       RunResult.err "the path of car-dir does not exist") ∧
    chunkAction (envOk (cfgPlain 5)) { flags0 with config := "" } 1 =
      ([Event.existDirCheck "car" true],
       RunResult.err "config file path is required") :=
  ⟨(chunk_early_guards (envNoDir (cfgPlain 5)) flags0 1).1 (by decide),
   (chunk_early_guards (envOk (cfgPlain 5)) { flags0 with config := "" } 1).2
     (by decide) (by decide)⟩

/-! Trace-shape lemmas: which events each stage of the chunk action can emit. -/

lemma resolveExtra_mem (env : ChunkEnv) (cfg : Cfg) :
    ∀ e ∈ (resolveExtra env cfg).1, ∃ s, e = Event.parseRAM s := by
  intro e he
  unfold resolveExtra at he
  split at he
  · split at he
    · simp at he
    · split at he <;> simp at he <;> exact ⟨_, he⟩
  · simp at he

lemma loopGo_mem (env : ChunkEnv) (p : String) (mkEv : Int → Event) :
    ∀ fuel ss k e, e ∈ (loopGo env p mkEv ss k fuel).1 →
      (∃ s, e = mkEv s) ∨ (∃ v, e = Event.saveConfig p v) ∨ e = Event.sleep 60 := by
  intro fuel
  induction fuel with
  | zero => intro ss k e he; simp [loopGo] at he
  | succ n ih =>
    intro ss k e he
    rw [loopGo] at he
    cases hc : env.chunkRun k with
    | some msg =>
      rw [hc] at he; simp at he; exact Or.inl ⟨ss, he⟩
    | none =>
      rw [hc] at he
      cases hs : env.saveConfig (k + 1) with
      | some msg =>
        rw [hs] at he; simp at he
        rcases he with h | h
        · exact Or.inl ⟨ss, h⟩
        · exact Or.inr (Or.inl ⟨ss + 1, h⟩)
      | none =>
        rw [hs] at he; simp at he
        rcases he with h | h | h | h
        · exact Or.inl ⟨ss, h⟩
        · exact Or.inr (Or.inl ⟨ss + 1, h⟩)
        · exact Or.inr (Or.inr h)
        · exact ih (ss + 1) (k + 1) e h

lemma runChunkPhase_mem (env : ChunkEnv) (f : ChunkFlags) (cb : GraphBuildCallback)
    (ss : Int) (fuel : Nat) (e : Event)
    (he : e ∈ (runChunkPhase env f cb ss fuel).1) :
    (∃ s, e = Event.chunkCall s f.parentPath (trimSuffixSlash f.targetPath) f.carDir
      f.graphName f.parallel cb f.randomRenameSourceFile f.randomSelectFile) ∨
    (∃ v, e = Event.saveConfig f.config v) ∨ e = Event.sleep 60 := by
  unfold runChunkPhase at he
  split at he
  · split at he <;> (simp at he; exact Or.inl ⟨ss, he⟩)
  · exact loopGo_mem env f.config _ fuel ss 0 e he

lemma afterExtra_mem (env : ChunkEnv) (f : ChunkFlags) (cfg : Cfg)
    (ss extra : Int) (fuel : Nat) (e : Event)
    (he : e ∈ (afterExtra env f cfg ss extra fuel).1) :
    e = Event.newRealFile (trimSuffixSlash cfg.ExtraFilePath) extra ss
      f.randomRenameSourceFile ∨
    (∃ s, e = Event.chunkCall s f.parentPath (trimSuffixSlash f.targetPath) f.carDir
      f.graphName f.parallel (selectCallback f) f.randomRenameSourceFile
      f.randomSelectFile) ∨
    (∃ v, e = Event.saveConfig f.config v) ∨ e = Event.sleep 60 := by
  unfold afterExtra at he
  split at he
  · simp at he
  · split at he
    · simp at he; exact Or.inl he
    · simp at he
      rcases he with h | h
      · exact Or.inl h
      · exact Or.inr (runChunkPhase_mem env f _ ss fuel e h)

lemma afterSave_mem (env : ChunkEnv) (f : ChunkFlags) (cfg : Cfg)
    (ss : Int) (fuel : Nat) (e : Event)
    (he : e ∈ (afterSave env f cfg ss fuel).1) :
    e ∈ (resolveExtra env cfg).1 ∨
    (∃ extra, (resolveExtra env cfg).2 = Except.ok extra ∧
      e ∈ (afterExtra env f cfg ss extra fuel).1) := by
  unfold afterSave at he
  split at he
  · exact Or.inl he
  · next extra heq =>
    simp at he
    rcases he with h | h
    · exact Or.inl h
    · exact Or.inr ⟨extra, heq, h⟩

lemma afterLoad_mem (env : ChunkEnv) (f : ChunkFlags) (cfg : Cfg)
    (fuel : Nat) (e : Event) (he : e ∈ (afterLoad env f cfg fuel).1) :
    e = Event.saveConfig f.config (cfg.SliceSize + 1) ∨
    e ∈ (afterSave env f cfg (cfg.SliceSize + 1) fuel).1 := by
  unfold afterLoad at he
  split at he
  · simp at he
  · split at he
    · simp at he; exact Or.inl he
    · simp at he; exact he

lemma chunkAction_mem (env : ChunkEnv) (f : ChunkFlags) (fuel : Nat) (e : Event)
    (he : e ∈ (chunkAction env f fuel).1) :
    (∃ b, e = Event.existDirCheck f.carDir b) ∨ e = Event.loadConfig f.config ∨
    (∃ cfg, env.loadConfig f.config = Except.ok cfg ∧
      e ∈ (afterLoad env f cfg fuel).1) := by
  unfold chunkAction at he
  split at he
  · simp at he; exact Or.inl ⟨false, he⟩
  · split at he
    · simp at he; exact Or.inl ⟨true, he⟩
    · split at he
      · simp at he
        rcases he with h | h
        · exact Or.inl ⟨true, h⟩
        · exact Or.inr (Or.inl h)
      · next cfg heq =>
        simp at he
        rcases he with h | h | h
        · exact Or.inl ⟨true, h⟩
        · exact Or.inr (Or.inl h)
        · exact Or.inr (Or.inr ⟨cfg, heq, h⟩)

/-- C5: whenever the chunk command invokes `Chunk`, the callback it passes
is the one selected deterministically from the flags, drawn from the closed
set of three: commitment calculation when `calc-commp` is set, otherwise
manifest recording when `save-manifest` is set, otherwise pass-through
error propagation. -/
theorem chunk_callback_selection (env : ChunkEnv) (f : ChunkFlags) (fuel : Nat) :
    (∀ e ∈ (chunkAction env f fuel).1,
      e.cbOf = none ∨ e.cbOf = some (selectCallback f)) ∧
    (f.calcCommp = true →
      selectCallback f = .commP f.carDir f.rename f.addPadding) ∧
    (f.calcCommp = false → f.saveManifest = true →
      selectCallback f = .csv f.carDir) ∧
    (f.calcCommp = false → f.saveManifest = false →
      selectCallback f = .err) := by
  refine ⟨fun e he => ?_, fun h => by simp [selectCallback, h],
    fun h h' => by simp [selectCallback, h, h'],
    fun h h' => by simp [selectCallback, h, h']⟩
  rcases chunkAction_mem env f fuel e he with ⟨b, rfl⟩ | rfl | ⟨cfg, _, h⟩
  · exact Or.inl rfl
  · exact Or.inl rfl
  rcases afterLoad_mem env f cfg fuel e h with rfl | h
  · exact Or.inl rfl
  rcases afterSave_mem env f cfg _ fuel e h with h | ⟨extra, _, h⟩
  · obtain ⟨s, rfl⟩ := resolveExtra_mem env cfg e h
    exact Or.inl rfl
  rcases afterExtra_mem env f cfg _ extra fuel e h with rfl | ⟨s, rfl⟩ | ⟨v, rfl⟩ | rfl
  · exact Or.inl rfl
  · exact Or.inr rfl
  · exact Or.inl rfl
  · exact Or.inl rfl

theorem chunk_callback_selection_wit :
    (Event.chunkCall 6 "" "data" "car" "g" 2 (selectCallback flags0) false
      true).cbOf = none ∨
    (Event.chunkCall 6 "" "data" "car" "g" 2 (selectCallback flags0) false
      true).cbOf = some (selectCallback flags0) :=
  (chunk_callback_selection (envOk (cfgPlain 5)) flags0 1).1
    (Event.chunkCall 6 "" "data" "car" "g" 2 (selectCallback flags0) false true)
    (by decide)

/-- C4 counterexample: the configured slice size 0 is non-positive, yet the
chunk command does not fail: the config file is rewritten, the extra-file
reader is created and `Chunk` is invoked (the size check is performed on
the incremented value 1, not on the configured 0). -/
theorem chunk_nonpos_slice_cex :
    (chunkAction (envOk (cfgPlain 0)) flags0 1).2 = RunResult.ok ∧
    ((chunkAction (envOk (cfgPlain 0)) flags0 1).1.any Event.isSave) = true ∧
    ((chunkAction (envOk (cfgPlain 0)) flags0 1).1.any Event.isChunkCall) = true := by
  decide

/-- C4 amended: the non-positivity check is applied to the incremented
slice size: for every configuration with stored SliceSize + 1 ≤ 0 (that is,
stored SliceSize < 0) the chunk command fails with the size error and
aborts before doing any work — the config file is not rewritten, the
extra-file reader is not created and `Chunk` is not invoked (the trace ends
at the config load); a stored SliceSize of 0 passes the check. -/
theorem chunk_nonpos_slice (env : ChunkEnv) (f : ChunkFlags) (cfg : Cfg)
    (fuel : Nat) (hdir : env.existDir f.carDir = true) (hcfg : f.config ≠ "")
    (hload : env.loadConfig f.config = Except.ok cfg)
    (hneg : cfg.SliceSize + 1 ≤ 0) :
    chunkAction env f fuel =
      ([Event.existDirCheck f.carDir true, Event.loadConfig f.config],
       RunResult.err ("slice size has been set as " ++
         toString (cfg.SliceSize + 1))) := by
  simp [chunkAction, hdir, hcfg, hload, afterLoad, if_pos hneg]

theorem chunk_nonpos_slice_wit :
    chunkAction (envOk (cfgPlain (-5))) flags0 1 =
      ([Event.existDirCheck "car" true, Event.loadConfig "cfg.toml"],
       RunResult.err ("slice size has been set as " ++
         toString ((-5 : Int) + 1))) :=
  chunk_nonpos_slice (envOk (cfgPlain (-5))) flags0 (cfgPlain (-5)) 1
    (by decide) (by decide) rfl (by decide)

/-- C1 counterexample: a configuration whose incremented slice size plus
extra-file slice size exceeds 32 GiB is indeed rejected with an error and
`Chunk` is not invoked, but the config file has already been written before
the rejection, contradicting the claim that no file on disk (including the
config file) is written first. -/
theorem chunk_bound_cex :
    (chunkAction (envOk cfgBig) flags0 1).2.isErr = true ∧
    ((chunkAction (envOk cfgBig) flags0 1).1.any Event.isChunkCall) = false ∧
    ((chunkAction (envOk cfgBig) flags0 1).1.any Event.isSave) = true := by
  decide

/-- C1 amended: for every configuration that reaches the 32 GiB bound check
(car-dir exists, config path set, config loads, incremented slice size
positive, save succeeds, extra size resolves) with
sliceSize + extraFileSliceSize > 32 GiB, the chunk command rejects with an
error; `Chunk` is never invoked and the extra-file reader is never created
(everything after the config save is at most size-string parsing), but the
config file has already been rewritten before the rejection. -/
theorem chunk_bound_rejects (env : ChunkEnv) (f : ChunkFlags) (cfg : Cfg)
    (extra : Int) (fuel : Nat)
    (hdir : env.existDir f.carDir = true) (hcfg : f.config ≠ "")
    (hload : env.loadConfig f.config = Except.ok cfg)
    (hpos : 0 < cfg.SliceSize + 1) (hsave : env.saveConfig 0 = none)
    (hex : (resolveExtra env cfg).2 = Except.ok extra)
    (hbound : cfg.SliceSize + 1 + extra > 32 * Gib) :
    chunkAction env f fuel =
      (Event.existDirCheck f.carDir true :: Event.loadConfig f.config ::
         Event.saveConfig f.config (cfg.SliceSize + 1) ::
         (resolveExtra env cfg).1,
       RunResult.err ("slice size " ++ toString (cfg.SliceSize + 1) ++
         " + extra file slice size " ++ toString extra ++
         " exceeds 32 GiB")) ∧
    ∀ e ∈ (resolveExtra env cfg).1, ∃ s, e = Event.parseRAM s := by
  refine ⟨?_, resolveExtra_mem env cfg⟩
  simp [chunkAction, hdir, hcfg, hload, afterLoad,
    if_neg (show ¬cfg.SliceSize + 1 ≤ 0 by omega), hsave, afterSave, hex,
    afterExtra, if_pos hbound]

theorem chunk_bound_rejects_wit :
    chunkAction (envOk cfgBig) flags0 1 =
      (Event.existDirCheck "car" true :: Event.loadConfig "cfg.toml" ::
         Event.saveConfig "cfg.toml" 33285996545 ::
         (resolveExtra (envOk cfgBig) cfgBig).1,
       RunResult.err ("slice size " ++ toString (33285996545 : Int) ++
         " + extra file slice size " ++ toString (1073741824 : Int) ++
         " exceeds 32 GiB")) :=
  ((chunk_bound_rejects (envOk cfgBig) flags0 cfgBig 1073741824 1
    (by decide) (by decide) rfl (by decide) rfl rfl (by decide)).1)

lemma string_length_ne_zero (s : String) (h : s ≠ "") : s.length ≠ 0 := by
  cases s with
  | mk d =>
    simp only [String.length]
    intro hl
    apply h
    simp only [List.length_eq_zero] at hl
    simp [hl]

/-- C10: the extra-file size setting is validated and parsed only when an
extra file path is configured.  If `ExtraFilePath` is non-empty and
`ExtraFileSizeInOnePiece` is empty or unparsable, the chunk command fails
with a config error before any chunking (the trace ends before any `Chunk`
call); if `ExtraFilePath` is empty, the size string is never parsed (no
parse event ever appears in the trace) and the extra-file slice size used
is 0. -/
theorem chunk_extra_validation (env : ChunkEnv) (f : ChunkFlags) (cfg : Cfg)
    (fuel : Nat) (hdir : env.existDir f.carDir = true) (hcfg : f.config ≠ "")
    (hload : env.loadConfig f.config = Except.ok cfg)
    (hpos : 0 < cfg.SliceSize + 1) (hsave : env.saveConfig 0 = none) :
    (cfg.ExtraFilePath ≠ "" → cfg.ExtraFileSizeInOnePiece = "" →
      chunkAction env f fuel =
        ([Event.existDirCheck f.carDir true, Event.loadConfig f.config,
          Event.saveConfig f.config (cfg.SliceSize + 1)],
         RunResult.err
           "extra file size in one piece is required when extra file path is set")) ∧
    (∀ msg, cfg.ExtraFilePath ≠ "" → cfg.ExtraFileSizeInOnePiece ≠ "" →
      env.ramInBytes cfg.ExtraFileSizeInOnePiece = Except.error msg →
      chunkAction env f fuel =
        ([Event.existDirCheck f.carDir true, Event.loadConfig f.config,
          Event.saveConfig f.config (cfg.SliceSize + 1),
          Event.parseRAM cfg.ExtraFileSizeInOnePiece],
         RunResult.err ("failed to parse real file size: " ++ msg))) ∧
    (cfg.ExtraFilePath = "" →
      resolveExtra env cfg = ([], Except.ok 0) ∧
      ∀ e ∈ (chunkAction env f fuel).1, e.isParseRAM = false) := by
  refine ⟨fun hp hsz => ?_, fun msg hp hsz hram => ?_, fun hp => ⟨?_, ?_⟩⟩
  · simp [chunkAction, hdir, hcfg, hload, afterLoad,
      if_neg (show ¬cfg.SliceSize + 1 ≤ 0 by omega), hsave, afterSave,
      resolveExtra, string_length_ne_zero cfg.ExtraFilePath hp, hsz]
  · simp [chunkAction, hdir, hcfg, hload, afterLoad,
      if_neg (show ¬cfg.SliceSize + 1 ≤ 0 by omega), hsave, afterSave,
      resolveExtra, string_length_ne_zero cfg.ExtraFilePath hp, hsz, hram]
  · simp [resolveExtra, hp]
  · intro e he
    rcases chunkAction_mem env f fuel e he with ⟨b, rfl⟩ | rfl | ⟨cfg', hc, h⟩
    · rfl
    · rfl
    have hcc : cfg' = cfg := by
      rw [hload] at hc
      exact (Except.ok.injEq _ _).mp hc.symm
    subst hcc
    rcases afterLoad_mem env f cfg' fuel e h with rfl | h
    · rfl
    rcases afterSave_mem env f cfg' _ fuel e h with h | ⟨extra, _, h⟩
    · rw [show resolveExtra env cfg' = ([], Except.ok 0) by
        simp [resolveExtra, hp]] at h
      simp at h
    rcases afterExtra_mem env f cfg' _ extra fuel e h with
      rfl | ⟨s, rfl⟩ | ⟨v, rfl⟩ | rfl <;> rfl

theorem chunk_extra_validation_wit :
    chunkAction (envOk cfgExtraNoSize) flags0 1 =
      ([Event.existDirCheck "car" true, Event.loadConfig "cfg.toml",
        Event.saveConfig "cfg.toml" 6],
       RunResult.err
         "extra file size in one piece is required when extra file path is set") :=
  (chunk_extra_validation (envOk cfgExtraNoSize) flags0 cfgExtraNoSize 1
    (by decide) (by decide) rfl (by decide) rfl).1 (by decide) rfl

/-- C3 counterexample: in loop mode, when the first `Chunk` call returns an
error the driver terminates immediately with that error: the action's
result is the wrapped chunk error and the trace contains no 60-second wait,
contradicting the claim that the driver waits the fixed delay and runs the
pass again regardless of the outcome. -/
theorem chunk_loop_cex :
    (chunkAction (envChunkFail (cfgPlain 5) fun _ => true)
        { flags0 with loop := true } 3).2 =
      RunResult.err "failed to chunk: read error" ∧
    ((chunkAction (envChunkFail (cfgPlain 5) fun _ => true)
        { flags0 with loop := true } 3).1.any Event.isSleep) = false := by
  decide

/-- C3 amended: in loop mode, after a pass succeeds (and the incremented
config is re-saved) the driver waits the fixed 60-second delay and then
runs the next pass at the incremented slice size; but when a pass returns
an error the driver terminates immediately with that error (wrapped as
"failed to chunk: ..."), with no delay and no further pass. -/
theorem chunk_loop_step (env : ChunkEnv) (p : String) (mkEv : Int → Event)
    (ss : Int) (k fuel : Nat) :
    (∀ msg, env.chunkRun k = some msg →
      loopGo env p mkEv ss k (fuel + 1) =
        ([mkEv ss], RunResult.err ("failed to chunk: " ++ msg))) ∧
    (env.chunkRun k = none → env.saveConfig (k + 1) = none →
      loopGo env p mkEv ss k (fuel + 1) =
        (mkEv ss :: Event.saveConfig p (ss + 1) :: Event.sleep 60 ::
           (loopGo env p mkEv (ss + 1) (k + 1) fuel).1,
         (loopGo env p mkEv (ss + 1) (k + 1) fuel).2)) := by
  constructor
  · intro msg h
    rw [loopGo, h]
  · intro h h'
    rw [loopGo, h, h']

theorem chunk_loop_step_wit :
    loopGo (envChunkFail (cfgPlain 5) fun _ => true) "cfg.toml"
        (fun s => Event.chunkCall s "" "data" "car" "g" 2
          (selectCallback flags0) false true) 6 0 1 =
      ([Event.chunkCall 6 "" "data" "car" "g" 2 (selectCallback flags0)
          false true],
       RunResult.err "failed to chunk: read error") :=
  (chunk_loop_step (envChunkFail (cfgPlain 5) fun _ => true) "cfg.toml"
    (fun s => Event.chunkCall s "" "data" "car" "g" 2
      (selectCallback flags0) false true) 6 0 0).1 "read error" rfl

lemma loopGo_all_ok (env : ChunkEnv) (p : String) (mkEv : Int → Event)
    (hc : ∀ k, env.chunkRun k = none) (hs : ∀ k, env.saveConfig k = none) :
    ∀ fuel ss k, loopGo env p mkEv ss k fuel =
      (((List.range fuel).map fun i : Nat =>
          [mkEv (ss + (i : Int)), Event.saveConfig p (ss + (i : Int) + 1),
           Event.sleep 60]).flatten,
       RunResult.running) := by
  intro fuel
  induction fuel with
  | zero => intro ss k; simp [loopGo]
  | succ n ih =>
    intro ss k
    rw [loopGo, hc k, hs (k + 1), ih (ss + 1) (k + 1), List.range_succ_eq_map]
    simp only [List.map_cons, List.flatten_cons, List.map_map, Nat.cast_zero,
      add_zero, List.cons_append, List.nil_append, Prod.mk.injEq, and_true,
      List.cons.injEq, true_and]
    refine congrArg List.flatten (List.map_congr_left fun i _ => ?_)
    have h1 : ss + 1 + (i : Int) = ss + ((i : Int) + 1) := by ring
    simp only [Function.comp_apply, Nat.cast_succ, h1]

/-! Stage-equation lemmas for the happy path of the chunk action. -/

lemma chunkAction_ok_cfg (env : ChunkEnv) (f : ChunkFlags) (cfg : Cfg)
    (fuel : Nat) (hdir : env.existDir f.carDir = true) (hcfg : f.config ≠ "")
    (hload : env.loadConfig f.config = Except.ok cfg) :
    chunkAction env f fuel =
      (Event.existDirCheck f.carDir true :: Event.loadConfig f.config ::
        (afterLoad env f cfg fuel).1, (afterLoad env f cfg fuel).2) := by
  rw [chunkAction, hdir, hload]
  simp [hcfg]

lemma afterLoad_ok (env : ChunkEnv) (f : ChunkFlags) (cfg : Cfg) (fuel : Nat)
    (hpos : 0 < cfg.SliceSize + 1) (hs0 : env.saveConfig 0 = none) :
    afterLoad env f cfg fuel =
      (Event.saveConfig f.config (cfg.SliceSize + 1) ::
        (afterSave env f cfg (cfg.SliceSize + 1) fuel).1,
       (afterSave env f cfg (cfg.SliceSize + 1) fuel).2) := by
  rw [afterLoad, if_neg (show ¬cfg.SliceSize + 1 ≤ 0 by omega), hs0]

lemma afterSave_ok (env : ChunkEnv) (f : ChunkFlags) (cfg : Cfg)
    (ss extra : Int) (fuel : Nat)
    (hex : (resolveExtra env cfg).2 = Except.ok extra) :
    afterSave env f cfg ss fuel =
      ((resolveExtra env cfg).1 ++ (afterExtra env f cfg ss extra fuel).1,
       (afterExtra env f cfg ss extra fuel).2) := by
  rw [afterSave, hex]

lemma afterExtra_ok (env : ChunkEnv) (f : ChunkFlags) (cfg : Cfg)
    (ss extra : Int) (fuel : Nat) (hbound : ¬ss + extra > 32 * Gib)
    (hrf : env.newRealFile = none) :
    afterExtra env f cfg ss extra fuel =
      (Event.newRealFile (trimSuffixSlash cfg.ExtraFilePath) extra ss
          f.randomRenameSourceFile ::
        (runChunkPhase env f (selectCallback f) ss fuel).1,
       (runChunkPhase env f (selectCallback f) ss fuel).2) := by
  rw [afterExtra, if_neg hbound, hrf]

lemma runChunkPhase_once (env : ChunkEnv) (f : ChunkFlags)
    (cb : GraphBuildCallback) (ss : Int) (fuel : Nat) (hloop : f.loop = false)
    (hc0 : env.chunkRun 0 = none) :
    runChunkPhase env f cb ss fuel =
      ([Event.chunkCall ss f.parentPath (trimSuffixSlash f.targetPath)
          f.carDir f.graphName f.parallel cb f.randomRenameSourceFile
          f.randomSelectFile], RunResult.ok) := by
  rw [runChunkPhase, hloop, hc0]
  simp

lemma runChunkPhase_loop (env : ChunkEnv) (f : ChunkFlags)
    (cb : GraphBuildCallback) (ss : Int) (fuel : Nat) (hloop : f.loop = true) :
    runChunkPhase env f cb ss fuel =
      loopGo env f.config
        (fun s => Event.chunkCall s f.parentPath (trimSuffixSlash f.targetPath)
          f.carDir f.graphName f.parallel cb f.randomRenameSourceFile
          f.randomSelectFile) ss 0 fuel := by
  rw [runChunkPhase, hloop]
  simp

/-- C8 counterexample: an invocation of the chunk command with an empty
config-path flag performs no config save at all (and fails), contradicting
the claim that every invocation increments the stored SliceSize and saves
the config file. -/
theorem chunk_mutation_cex :
    ((chunkAction (envOk (cfgPlain 5)) { flags0 with config := "" } 1).1.any
      Event.isSave) = false ∧
    (chunkAction (envOk (cfgPlain 5)) { flags0 with config := "" } 1).2 =
      RunResult.err "config file path is required" := by
  decide

/-- C8 amended: every invocation of the chunk command that passes the
initial validation (car-dir exists, config path non-empty, config loads,
incremented slice size positive) mutates the persisted configuration: the
stored SliceSize is incremented by one and the config is saved before any
chunking, so the slice size actually used equals the configured value plus
one; in loop mode, SliceSize is additionally incremented and re-saved after
every successful pass, so the effective slice size grows by one per
iteration.  (Invocations failing the initial validation save nothing.) -/
theorem chunk_config_mutation (env : ChunkEnv) (f : ChunkFlags) (cfg : Cfg)
    (fuel : Nat) (hdir : env.existDir f.carDir = true) (hcfg : f.config ≠ "")
    (hload : env.loadConfig f.config = Except.ok cfg)
    (hpos : 0 < cfg.SliceSize + 1) :
    (∃ rest, (chunkAction env f fuel).1 =
      Event.existDirCheck f.carDir true :: Event.loadConfig f.config ::
        Event.saveConfig f.config (cfg.SliceSize + 1) :: rest) ∧
    (∀ extra, (∀ k, env.saveConfig k = none) → (∀ k, env.chunkRun k = none) →
      env.newRealFile = none →
      (resolveExtra env cfg).2 = Except.ok extra →
      cfg.SliceSize + 1 + extra ≤ 32 * Gib →
      (f.loop = false →
        chunkAction env f fuel =
          (Event.existDirCheck f.carDir true :: Event.loadConfig f.config ::
            Event.saveConfig f.config (cfg.SliceSize + 1) ::
            ((resolveExtra env cfg).1 ++
              (Event.newRealFile (trimSuffixSlash cfg.ExtraFilePath) extra
                  (cfg.SliceSize + 1) f.randomRenameSourceFile ::
                [Event.chunkCall (cfg.SliceSize + 1) f.parentPath
                  (trimSuffixSlash f.targetPath) f.carDir f.graphName
                  f.parallel (selectCallback f) f.randomRenameSourceFile
                  f.randomSelectFile])),
           RunResult.ok)) ∧
      (f.loop = true →
        chunkAction env f fuel =
          (Event.existDirCheck f.carDir true :: Event.loadConfig f.config ::
            Event.saveConfig f.config (cfg.SliceSize + 1) ::
            ((resolveExtra env cfg).1 ++
              (Event.newRealFile (trimSuffixSlash cfg.ExtraFilePath) extra
                  (cfg.SliceSize + 1) f.randomRenameSourceFile ::
                ((List.range fuel).map fun i : Nat =>
                  [Event.chunkCall (cfg.SliceSize + 1 + (i : Int)) f.parentPath
                    (trimSuffixSlash f.targetPath) f.carDir f.graphName
                    f.parallel (selectCallback f) f.randomRenameSourceFile
                    f.randomSelectFile,
                   Event.saveConfig f.config (cfg.SliceSize + 1 + (i : Int) + 1),
                   Event.sleep 60]).flatten)),
           RunResult.running))) := by
  constructor
  · cases hs0 : env.saveConfig 0 with
    | none =>
      exact ⟨(afterSave env f cfg (cfg.SliceSize + 1) fuel).1,
        by simp [chunkAction, hdir, hcfg, hload, afterLoad,
          if_neg (show ¬cfg.SliceSize + 1 ≤ 0 by omega), hs0]⟩
    | some msg =>
      exact ⟨[], by simp [chunkAction, hdir, hcfg, hload, afterLoad,
        if_neg (show ¬cfg.SliceSize + 1 ≤ 0 by omega), hs0]⟩
  · intro extra hsAll hcAll hrf hex hbound
    constructor
    · intro hloop
      rw [chunkAction_ok_cfg env f cfg fuel hdir hcfg hload,
        afterLoad_ok env f cfg fuel hpos (hsAll 0),
        afterSave_ok env f cfg _ extra fuel hex,
        afterExtra_ok env f cfg _ extra fuel (by omega) hrf,
        runChunkPhase_once env f (selectCallback f) _ fuel hloop (hcAll 0)]
    · intro hloop
      rw [chunkAction_ok_cfg env f cfg fuel hdir hcfg hload,
        afterLoad_ok env f cfg fuel hpos (hsAll 0),
        afterSave_ok env f cfg _ extra fuel hex,
        afterExtra_ok env f cfg _ extra fuel (by omega) hrf,
        runChunkPhase_loop env f (selectCallback f) _ fuel hloop,
        loopGo_all_ok env f.config _ hcAll hsAll fuel (cfg.SliceSize + 1) 0]

theorem chunk_config_mutation_wit :
    chunkAction (envOk (cfgPlain 5)) flags0 1 =
      ([Event.existDirCheck "car" true, Event.loadConfig "cfg.toml",
        Event.saveConfig "cfg.toml" 6, Event.newRealFile "" 0 6 false,
        Event.chunkCall 6 "" "data" "car" "g" 2
          (GraphBuildCallback.commP "car" false false) false true],
       RunResult.ok) :=
  ((chunk_config_mutation (envOk (cfgPlain 5)) flags0 (cfgPlain 5) 1
    (by decide) (by decide) rfl (by decide)).2 0 (fun _ => rfl) (fun _ => rfl)
    rfl rfl (by decide)).1 rfl

end Graphsplit
